import Mathlib

/-!
Shallow embedding of `sudopy.py`: a 9×9 sudoku grid (`Puzzle`) with
validated writes and a recursive backtracking solver (`_solve_puzzle`).

Conventions of the embedding:
* Python ints are `Int`.
* The cell array `Puzzle.self.data` is modelled as a total function
  `Fin 9 → Fin 9 → Int`; the 9×9 shape is carried by the type, the value
  range `0 ≤ v ≤ 9` is a separate predicate (`inRange`), since `__setitem__`
  does not range-check the written value.
* A Python function that can raise is modelled with `Option`/`Except`
  (`none` / `.error` = the exception).
* `deepcopy` is a no-op on the pure value model.
-/

namespace Sudopy

/-- Cell array of a `Puzzle` (the `self.data` field after `__init__` has
validated the 9×9 shape): row-major, cells are Python ints. -/
abbrev Grid := Fin 9 → Fin 9 → Int

/-- Models the in-range read `self[row, col]` (i.e. `self.data[row][col]`)
for the internal call sites of `complete`, `check_valid_move` and
`_solve_puzzle`, which always pass `0 ≤ row, col ≤ 8`.  The out-of-range
default 0 is never reached from those call sites. -/
def cell (g : Grid) (r c : Nat) : Int :=
  if h : r < 9 ∧ c < 9 then g ⟨r, h.1⟩ ⟨c, h.2⟩ else 0

/-- Models `Puzzle.check_valid_move(self, row, col, v)`: scan column `col`
and row `row` (`self[i, col]`, `self[row, i]` for `i in range(9)`), then the
3×3 block starting at `(row//3*3, col//3*3)`; `False` as soon as any scanned
cell equals `v`.  Note the scans include the target cell `(row, col)`. -/
def check_valid_move (g : Grid) (row col : Nat) (v : Int) : Bool :=
  ((List.range 9).all fun i => !(cell g i col == v) && !(cell g row i == v)) &&
  (let sq_row := row / 3 * 3
   let sq_col := col / 3 * 3
   (List.range 3).all fun i => (List.range 3).all fun j =>
     !(cell g (sq_row + i) (sq_col + j) == v))

/-- Models the raw write `self.data[row][col] = value` on the last line of
`__setitem__` (callers pass `0 ≤ row, col ≤ 8`). -/
def writeCell (g : Grid) (row col : Nat) (v : Int) : Grid :=
  fun i j => if i.val = row ∧ j.val = col then v else g i j

/-- Models `Puzzle.__setitem__(self, (row, col), value)` for in-range
coordinates: `raise InvalidMove()` (= `none`) when `check_valid_move` is
false, otherwise perform the write.  (`assert isinstance(value, int)` is
carried by the type of `v`.) -/
def setitem (g : Grid) (row col : Nat) (v : Int) : Option Grid :=
  if check_valid_move g row col v then some (writeCell g row col v) else none

/-- Models `Puzzle.complete(self)`: accumulate the nine row sums and nine
column sums of `self[i, j]` and test `all(columnwise == 45) and
all(rowwise == 45)`. -/
def complete (g : Grid) : Bool :=
  (((List.range 9).all fun j => ((List.range 9).map fun i => cell g i j).sum == 45) &&
   ((List.range 9).all fun i => ((List.range 9).map fun j => cell g i j).sum == 45))

/-- Models `next_rc(row, col)`: `col += 1; if col >= 9: col -= 9; row += 1`. -/
def next_rc (row col : Nat) : Nat × Nat :=
  let c := col + 1
  if 9 ≤ c then (row + 1, c - 9) else (row, c)

/-- Models the `for i in range(9)` candidate loop inside `_solve_puzzle`,
over the list of remaining loop indices `i` (candidate value `i + 1`).
`recur` is the recursive call `_solve_puzzle(puzzle, *next_rc(row, col))`.
Results: `some (some p)` = a `Puzzle` was returned (truthy), `some none` =
the final `return False`, `none` = out of fuel in `recur` (a model artifact,
see `solveAux`).  After a successful tentative write the local `puzzle`
keeps that value, so the loop continues on `g'`, exactly as in the source. -/
def tryCandidates (recur : Grid → Option (Option Grid)) (row col : Nat) :
    Grid → List Nat → Option (Option Grid)
  | _, [] => some none
  | g, i :: rest =>
    match setitem g row col ((i : Int) + 1) with
    | none => tryCandidates recur row col g rest
    | some g' =>
      if row = 8 ∧ col = 8 then some (some g')
      else
        match recur g' with
        | some (some p) => some (some p)
        | some none => tryCandidates recur row col g' rest
        | none => none

/-- Models `_solve_puzzle(puzzle, row, col)`.  The Python recursion is
well-founded only on the cursor positions actually reachable from `(0, 0)`,
so the model carries explicit `fuel` counting recursion depth; `none` means
the fuel ran out, which never happens with fuel 82 from `(0, 0)`
(`solver_terminates` below).  `some none` models `return False`,
`some (some g)` models returning a solved grid. -/
def solveAux : Nat → Grid → Nat → Nat → Option (Option Grid)
  | 0, _, _, _ => none
  | fuel + 1, g, row, col =>
    if row = 9 ∨ col = 9 then some (some g)
    else if cell g row col ≠ 0 then
      solveAux fuel g (next_rc row col).1 (next_rc row col).2
    else
      tryCandidates (fun g' => solveAux fuel g' (next_rc row col).1 (next_rc row col).2)
        row col g (List.range 9)

/-- Models `Puzzle.solve(self)`: `solution = _solve_puzzle(self, 0, 0);
self.data = solution.data`.  When `_solve_puzzle` returns `False`, the
attribute access `False.data` raises `AttributeError`; both that crash and
the (unreachable, see `solver_terminates`) out-of-fuel case are modelled as
`.error ()`. -/
def solve (g : Grid) : Except Unit Grid :=
  match solveAux 82 g 0 0 with
  | some (some p) => Except.ok p
  | some none => Except.error ()
  | none => Except.error ()

/-- Models the validation in `Puzzle.__init__`: `data` is a list of exactly
9 lists, each of exactly 9 ints, every int in `[0, 9]`.  (`isinstance` tests
are carried by the type `List (List Int)`.) -/
def validTable (data : List (List Int)) : Bool :=
  data.length == 9 &&
  data.all fun r => r.length == 9 && r.all fun x => decide (0 ≤ x) && decide (x ≤ 9)

/-- Reads the validated table as a `Grid` (the stored `self.data`); the
`getD` defaults are never reached when `validTable data` holds. -/
def tableGrid (data : List (List Int)) : Grid :=
  fun i j => (((data.get? i.val).getD []).get? j.val).getD 0

/-- Models `Puzzle.__init__(self, data)`: `none` = a failed `assert`
(fatal construction error), otherwise the table is stored verbatim. -/
def puzzle_init (data : List (List Int)) : Option Grid :=
  if validTable data then some (tableGrid data) else none

/-- Models Python list indexing `l[i]` on a list of length 9, as used by
`self.data[row][col]` in `__getitem__`: indices `0 ≤ i ≤ 8` read directly,
negative indices `-9 ≤ i ≤ -1` wrap to `i + 9`, anything else raises
`IndexError` (= `none`). -/
def pyIndex (i : Int) : Option (Fin 9) :=
  if h : 0 ≤ i ∧ i < 9 then some ⟨i.toNat, by omega⟩
  else if h' : -9 ≤ i ∧ i < 0 then some ⟨(i + 9).toNat, by omega⟩
  else none

/-- Models `Puzzle.__getitem__(self, (row, col))`: no range check of its
own, just `self.data[row][col]` with Python list-indexing semantics. -/
def getitem (g : Grid) (row col : Int) : Option Int :=
  match pyIndex row, pyIndex col with
  | some r, some c => some (g r c)
  | _, _ => none

/-- Pairwise consistency of the non-zero cells: no value occurs twice in a
row, a column, or a 3×3 block (the sudoku legality invariant the spec calls
the semantic invariant). -/
def consistent (g : Grid) : Prop :=
  ∀ r c r' c' : Fin 9, (r ≠ r' ∨ c ≠ c') →
    (r = r' ∨ c = c' ∨ (r.val / 3 = r'.val / 3 ∧ c.val / 3 = c'.val / 3)) →
    g r c ≠ 0 → g r c ≠ g r' c'

instance (g : Grid) : Decidable (consistent g) := by
  unfold consistent; infer_instance

/-- Structural range invariant from `__init__`: every cell value in [0, 9]. -/
def inRange (g : Grid) : Prop := ∀ i j : Fin 9, 0 ≤ g i j ∧ g i j ≤ 9

instance (g : Grid) : Decidable (inRange g) := by
  unfold inRange; infer_instance

/-! Concrete grids and tables used as inputs of witnesses and
counterexamples. -/

/-- The all-zero (all-empty) grid. -/
def zeroGrid : Grid := fun _ _ => 0

/-- The grid with every cell 1 (constructible: all values in [0, 9]). -/
def oneGrid : Grid := fun _ _ => 1

/-- The grid with every cell 5 (constructible: all values in [0, 9]). -/
def fiveGrid : Grid := fun _ _ => 5

/-- Grid whose only non-zero cell is 5 at (0, 0). -/
def cornerFive : Grid := fun i j => if i.val = 0 ∧ j.val = 0 then 5 else 0

/-- Grid whose only non-zero cell is 7 at (8, 8). -/
def cornerSeven : Grid := fun i j => if i.val = 8 ∧ j.val = 8 then 7 else 0

/-- An unsolvable grid: column 0 holds 0,1,…,8 top to bottom and cell
(0, 1) holds 9, so no digit can legally be placed at the first empty cell
(0, 0). -/
def unsolvGrid : Grid :=
  fun i j =>
    if j.val = 0 then (i.val : Int)
    else if i.val = 0 ∧ j.val = 1 then 9 else 0

/-- A fully solved, consistent sudoku grid. -/
def solvedGrid : Grid :=
  fun i j => ((i.val * 3 + i.val / 3 + j.val) % 9 + 1 : Nat)

/-- A construction table whose first row starts with two 5s (duplicate
clues in a row, a legal input for `__init__`). -/
def dupTable : List (List Int) :=
  [5, 5, 0, 0, 0, 0, 0, 0, 0] :: List.replicate 8 (List.replicate 9 (0 : Int))

/-! Helper lemmas. -/

lemma cell_eq (g : Grid) (r c : Nat) (hr : r < 9) (hc : c < 9) :
    cell g r c = g ⟨r, hr⟩ ⟨c, hc⟩ := by
  unfold cell
  rw [dif_pos ⟨hr, hc⟩]

lemma colSum_eq (g : Grid) (j : Fin 9) :
    ((List.range 9).map fun i => cell g i j.val).sum = ∑ i : Fin 9, g i j :=
  calc ((List.range 9).map fun i => cell g i j.val).sum
      = ∑ k in Finset.range 9, cell g k j.val := rfl
    _ = ∑ i : Fin 9, cell g i.val j.val :=
        (Fin.sum_univ_eq_sum_range (fun k => cell g k j.val) 9).symm
    _ = ∑ i : Fin 9, g i j :=
        Finset.sum_congr rfl fun i _ => cell_eq g i.val j.val i.isLt j.isLt

lemma rowSum_eq (g : Grid) (i : Fin 9) :
    ((List.range 9).map fun j => cell g i.val j).sum = ∑ j : Fin 9, g i j :=
  calc ((List.range 9).map fun j => cell g i.val j).sum
      = ∑ k in Finset.range 9, cell g i.val k := rfl
    _ = ∑ j : Fin 9, cell g i.val j.val :=
        (Fin.sum_univ_eq_sum_range (fun k => cell g i.val k) 9).symm
    _ = ∑ j : Fin 9, g i j :=
        Finset.sum_congr rfl fun j _ => cell_eq g i.val j.val i.isLt j.isLt

lemma complete_iff (g : Grid) :
    complete g = true ↔
      (∀ j : Fin 9, (∑ i : Fin 9, g i j) = 45) ∧
      (∀ i : Fin 9, (∑ j : Fin 9, g i j) = 45) := by
  simp only [complete, Bool.and_eq_true, List.all_eq_true, List.mem_range, beq_iff_eq]
  constructor
  · rintro ⟨h1, h2⟩
    refine ⟨fun j => ?_, fun i => ?_⟩
    · rw [← colSum_eq]; exact h1 j.val j.isLt
    · rw [← rowSum_eq]; exact h2 i.val i.isLt
  · rintro ⟨h1, h2⟩
    refine ⟨fun j hj => ?_, fun i hi => ?_⟩
    · exact (colSum_eq g ⟨j, hj⟩).trans (h1 ⟨j, hj⟩)
    · exact (rowSum_eq g ⟨i, hi⟩).trans (h2 ⟨i, hi⟩)

lemma checkValid_iff (g : Grid) (row col : Fin 9) (v : Int) :
    check_valid_move g row.val col.val v = true ↔
      (∀ i : Fin 9, g i col ≠ v) ∧ (∀ j : Fin 9, g row j ≠ v) ∧
      (∀ i j : Fin 9, i.val / 3 = row.val / 3 → j.val / 3 = col.val / 3 →
        g i j ≠ v) := by
  have hr := row.isLt
  have hc := col.isLt
  simp only [check_valid_move, List.all_eq_true, List.mem_range, Bool.and_eq_true,
    Bool.not_eq_true', beq_eq_false_iff_ne]
  constructor
  · rintro ⟨h1, h2⟩
    refine ⟨fun i => ?_, fun j => ?_, fun i j hi hj => ?_⟩
    · have h := (h1 i.val i.isLt).1
      rwa [cell_eq g i.val col.val i.isLt hc, Fin.eta, Fin.eta] at h
    · have h := (h1 j.val j.isLt).2
      rwa [cell_eq g row.val j.val hr j.isLt, Fin.eta, Fin.eta] at h
    · have hi9 := i.isLt
      have hj9 := j.isLt
      have h := h2 (i.val - row.val / 3 * 3) (by omega) (j.val - col.val / 3 * 3) (by omega)
      rw [cell_eq g _ _ (by omega) (by omega)] at h
      have e1 : (⟨row.val / 3 * 3 + (i.val - row.val / 3 * 3), by omega⟩ : Fin 9) = i := by
        apply Fin.ext
        show row.val / 3 * 3 + (i.val - row.val / 3 * 3) = i.val
        omega
      have e2 : (⟨col.val / 3 * 3 + (j.val - col.val / 3 * 3), by omega⟩ : Fin 9) = j := by
        apply Fin.ext
        show col.val / 3 * 3 + (j.val - col.val / 3 * 3) = j.val
        omega
      rwa [e1, e2] at h
  · rintro ⟨hcol, hrow, hblk⟩
    refine ⟨fun i hi => ⟨?_, ?_⟩, fun i hi j hj => ?_⟩
    · rw [cell_eq g i col.val hi hc, Fin.eta]
      exact hcol ⟨i, hi⟩
    · rw [cell_eq g row.val i hr hi, Fin.eta]
      exact hrow ⟨i, hi⟩
    · rw [cell_eq g (row.val / 3 * 3 + i) (col.val / 3 * 3 + j) (by omega) (by omega)]
      refine hblk ⟨row.val / 3 * 3 + i, by omega⟩ ⟨col.val / 3 * 3 + j, by omega⟩ ?_ ?_
      · show (row.val / 3 * 3 + i) / 3 = row.val / 3
        omega
      · show (col.val / 3 * 3 + j) / 3 = col.val / 3
        omega

lemma writeCell_same (g : Grid) (row col : Fin 9) (v : Int) :
    writeCell g row.val col.val v row col = v := by
  simp [writeCell]

lemma writeCell_other (g : Grid) (row col : Fin 9) (v : Int) (i j : Fin 9)
    (h : ¬(i = row ∧ j = col)) : writeCell g row.val col.val v i j = g i j := by
  have h' : ¬(i.val = row.val ∧ j.val = col.val) := by
    simpa [Fin.ext_iff] using h
  simp [writeCell, h']

lemma writeCell_consistent (g : Grid) (row col : Fin 9) (v : Int)
    (hchk : check_valid_move g row.val col.val v = true) (hg : consistent g) :
    consistent (writeCell g row.val col.val v) := by
  obtain ⟨hcol, hrow, hblk⟩ := (checkValid_iff g row col v).1 hchk
  intro r c r' c' hne hunit hnz
  by_cases h1 : r = row ∧ c = col
  · obtain ⟨e1, e2⟩ := h1
    subst e1; subst e2
    by_cases h2 : r' = r ∧ c' = c
    · obtain ⟨f1, f2⟩ := h2
      subst f1; subst f2
      rcases hne with h | h <;> exact absurd rfl h
    · rw [writeCell_same, writeCell_other _ _ _ _ _ _ h2]
      rcases hunit with h | h | ⟨hb1, hb2⟩
      · exact fun he => hrow c' (by rw [h]; exact he.symm)
      · exact fun he => hcol r' (by rw [h]; exact he.symm)
      · exact fun he => hblk r' c' hb1.symm hb2.symm he.symm
  · by_cases h2 : r' = row ∧ c' = col
    · obtain ⟨e1, e2⟩ := h2
      subst e1; subst e2
      rw [writeCell_other _ _ _ _ _ _ h1] at hnz ⊢
      rw [writeCell_same]
      rcases hunit with h | h | ⟨hb1, hb2⟩
      · subst h; exact hrow c
      · subst h; exact hcol r
      · exact hblk r c hb1 hb2
    · rw [writeCell_other _ _ _ _ _ _ h1] at hnz ⊢
      rw [writeCell_other _ _ _ _ _ _ h2]
      exact hg r c r' c' hne hunit hnz

lemma nine_distinct (f : Fin 9 → Int)
    (hinj : ∀ a b : Fin 9, a ≠ b → f a ≠ f b)
    (hrange : ∀ a : Fin 9, 1 ≤ f a ∧ f a ≤ 9) :
    (∑ a : Fin 9, f a) = 45 ∧ ∀ d : Int, 1 ≤ d → d ≤ 9 → ∃! a : Fin 9, f a = d := by
  have hinj' : Function.Injective f := fun a b hab => by
    by_contra hne
    exact hinj a b hne hab
  have heb : ∀ a : Fin 9, ((f a - 1).toNat) < 9 := fun a => by
    have := hrange a; omega
  set e : Fin 9 → Fin 9 := fun a => ⟨(f a - 1).toNat, heb a⟩ with he
  have heinj : Function.Injective e := by
    intro a b hab
    have h1 := hrange a
    have h2 := hrange b
    have hval : (f a - 1).toNat = (f b - 1).toNat := congrArg Fin.val hab
    exact hinj' (by omega)
  have hbij : Function.Bijective e := Finite.injective_iff_bijective.1 heinj
  constructor
  · have hfa : ∀ a : Fin 9, f a = ((e a).val : Int) + 1 := fun a => by
      have := hrange a
      show f a = (((f a - 1).toNat : Nat) : Int) + 1
      omega
    calc ∑ a : Fin 9, f a
        = ∑ a : Fin 9, (((e a).val : Int) + 1) := Finset.sum_congr rfl fun a _ => hfa a
      _ = ∑ b : Fin 9, ((b.val : Int) + 1) := hbij.sum_comp fun b => ((b.val : Int) + 1)
      _ = 45 := by decide
  · intro d h1 h9
    obtain ⟨a, ha⟩ := hbij.2 ⟨(d - 1).toNat, by omega⟩
    have hfa : f a = d := by
      have := hrange a
      have hval : (f a - 1).toNat = (d - 1).toNat := congrArg Fin.val ha
      omega
    refine ⟨a, hfa, fun b hb => ?_⟩
    by_contra hne
    exact hinj b a hne (hb.trans hfa.symm)

/-! Unfolding lemmas for the solver model. -/

lemma setitem_none_iff (g : Grid) (row col : Nat) (v : Int) :
    setitem g row col v = none ↔ check_valid_move g row col v = false := by
  cases hv : check_valid_move g row col v <;> simp [setitem, hv]

lemma setitem_some_iff (g : Grid) (row col : Nat) (v : Int) (g' : Grid) :
    setitem g row col v = some g' ↔
      check_valid_move g row col v = true ∧ g' = writeCell g row col v := by
  cases hv : check_valid_move g row col v <;> simp [setitem, hv, eq_comm]

lemma tryCandidates_nil (recur : Grid → Option (Option Grid)) (row col : Nat) (g : Grid) :
    tryCandidates recur row col g [] = some none := rfl

lemma tryCandidates_cons_invalid (recur : Grid → Option (Option Grid)) (row col : Nat)
    (g : Grid) (i : Nat) (rest : List Nat)
    (h : setitem g row col ((i : Int) + 1) = none) :
    tryCandidates recur row col g (i :: rest) = tryCandidates recur row col g rest := by
  simp [tryCandidates, h]

lemma tryCandidates_cons_last (recur : Grid → Option (Option Grid)) (row col : Nat)
    (g g' : Grid) (i : Nat) (rest : List Nat)
    (h : setitem g row col ((i : Int) + 1) = some g') (h88 : row = 8 ∧ col = 8) :
    tryCandidates recur row col g (i :: rest) = some (some g') := by
  obtain ⟨e1, e2⟩ := h88
  subst e1; subst e2
  simp [tryCandidates, h]

lemma tryCandidates_cons_rec (recur : Grid → Option (Option Grid)) (row col : Nat)
    (g g' : Grid) (i : Nat) (rest : List Nat)
    (h : setitem g row col ((i : Int) + 1) = some g') (h88 : ¬(row = 8 ∧ col = 8)) :
    tryCandidates recur row col g (i :: rest) =
      match recur g' with
      | some (some p) => some (some p)
      | some none => tryCandidates recur row col g' rest
      | none => none := by
  simp only [tryCandidates, h, h88, if_false]

lemma solveAux_zero (g : Grid) (row col : Nat) : solveAux 0 g row col = none := rfl

lemma solveAux_succ (n : Nat) (g : Grid) (row col : Nat) :
    solveAux (n + 1) g row col =
      if row = 9 ∨ col = 9 then some (some g)
      else if cell g row col ≠ 0 then
        solveAux n g (next_rc row col).1 (next_rc row col).2
      else
        tryCandidates (fun g' => solveAux n g' (next_rc row col).1 (next_rc row col).2)
          row col g (List.range 9) := by
  rw [solveAux]

lemma next_rc_spec (row col : Nat) (h : col < 9) :
    (next_rc row col).1 * 9 + (next_rc row col).2 = row * 9 + col + 1 ∧
      (next_rc row col).2 < 9 := by
  simp only [next_rc]
  by_cases h9 : 9 ≤ col + 1 <;> simp [h9] <;> omega

/-! Termination of the solver: fuel 82 suffices from the cursor `(0, 0)`,
and the result is fuel-independent beyond that. -/

lemma tryCandidates_congr (r1 r2 : Grid → Option (Option Grid)) (row col : Nat)
    (h : ∀ g, r1 g = r2 g) :
    ∀ (l : List Nat) (g : Grid),
      tryCandidates r1 row col g l = tryCandidates r2 row col g l := by
  intro l
  induction l with
  | nil => intro g; rfl
  | cons i rest ih =>
    intro g
    cases hset : setitem g row col ((i : Int) + 1) with
    | none =>
      rw [tryCandidates_cons_invalid r1 row col g i rest hset,
        tryCandidates_cons_invalid r2 row col g i rest hset]
      exact ih g
    | some g' =>
      by_cases h88 : row = 8 ∧ col = 8
      · rw [tryCandidates_cons_last r1 row col g g' i rest hset h88,
          tryCandidates_cons_last r2 row col g g' i rest hset h88]
      · rw [tryCandidates_cons_rec r1 row col g g' i rest hset h88,
          tryCandidates_cons_rec r2 row col g g' i rest hset h88, h g']
        cases r2 g' with
        | none => rfl
        | some o =>
          cases o with
          | none => exact ih g'
          | some p => rfl

lemma tryCandidates_isSome (recur : Grid → Option (Option Grid)) (row col : Nat)
    (h : ∀ g, (recur g).isSome) :
    ∀ (l : List Nat) (g : Grid), (tryCandidates recur row col g l).isSome := by
  intro l
  induction l with
  | nil => intro g; rfl
  | cons i rest ih =>
    intro g
    cases hset : setitem g row col ((i : Int) + 1) with
    | none =>
      rw [tryCandidates_cons_invalid recur row col g i rest hset]
      exact ih g
    | some g' =>
      by_cases h88 : row = 8 ∧ col = 8
      · rw [tryCandidates_cons_last recur row col g g' i rest hset h88]
        rfl
      · rw [tryCandidates_cons_rec recur row col g g' i rest hset h88]
        cases hr : recur g' with
        | none => exact absurd (hr ▸ h g') (by simp)
        | some o =>
          cases o with
          | none => exact ih g'
          | some p => rfl

lemma solveAux_isSome :
    ∀ (n : Nat) (row col : Nat) (g : Grid), col < 9 → row * 9 + col ≤ 81 →
      82 - (row * 9 + col) ≤ n → (solveAux n g row col).isSome := by
  intro n
  induction n with
  | zero => intro row col g h1 h2 h3; omega
  | succ m ih =>
    intro row col g hcol hidx hfuel
    by_cases h9 : row = 9 ∨ col = 9
    · rw [solveAux_succ, if_pos h9]; rfl
    · have hrow : row ≤ 8 := by
        rcases Nat.lt_or_ge row 9 with h | h
        · omega
        · exact absurd (by omega : row = 9) (fun e => h9 (Or.inl e))
      obtain ⟨hnidx, hncol⟩ := next_rc_spec row col hcol
      rw [solveAux_succ, if_neg h9]
      by_cases hz : cell g row col ≠ 0
      · rw [if_pos hz]
        exact ih _ _ g hncol (by omega) (by omega)
      · rw [if_neg hz]
        exact tryCandidates_isSome _ row col
          (fun g' => ih _ _ g' hncol (by omega) (by omega)) (List.range 9) g

lemma solveAux_fuel_irrel :
    ∀ (n : Nat) (row col : Nat) (g : Grid) (f1 f2 : Nat), col < 9 →
      row * 9 + col ≤ 81 → 82 - (row * 9 + col) ≤ f1 → 82 - (row * 9 + col) ≤ f2 →
      f1 ≤ n → f2 ≤ n → solveAux f1 g row col = solveAux f2 g row col := by
  intro n
  induction n with
  | zero => intro row col g f1 f2 h1 h2 h3 h4 h5 h6; omega
  | succ m ih =>
    intro row col g f1 f2 hcol hidx hf1 hf2 hb1 hb2
    cases f1 with
    | zero => omega
    | succ a =>
      cases f2 with
      | zero => omega
      | succ b =>
        by_cases h9 : row = 9 ∨ col = 9
        · rw [solveAux_succ a, solveAux_succ b, if_pos h9, if_pos h9]
        · have hrow : row ≤ 8 := by
            rcases Nat.lt_or_ge row 9 with h | h
            · omega
            · exact absurd (by omega : row = 9) (fun e => h9 (Or.inl e))
          obtain ⟨hnidx, hncol⟩ := next_rc_spec row col hcol
          rw [solveAux_succ a, solveAux_succ b, if_neg h9, if_neg h9]
          by_cases hz : cell g row col ≠ 0
          · rw [if_pos hz, if_pos hz]
            exact ih _ _ g a b hncol (by omega) (by omega) (by omega) (by omega) (by omega)
          · rw [if_neg hz, if_neg hz]
            exact tryCandidates_congr _ _ row col
              (fun g' => ih _ _ g' a b hncol (by omega) (by omega) (by omega) (by omega)
                (by omega))
              (List.range 9) g

lemma solveAux_fuel_ge (fuel : Nat) (g : Grid) (h : 82 ≤ fuel) :
    solveAux fuel g 0 0 = solveAux 82 g 0 0 :=
  solveAux_fuel_irrel fuel 0 0 g fuel 82 (by omega) (by omega) (by omega) (by omega)
    (by omega) (by omega)

/-! Soundness of the solver on consistent, in-range starting grids: the
returned grid is consistent, in range, agrees with the input before the
cursor, and has no empty cell at or after the cursor. -/

lemma writeCell_inRange (gc : Grid) (row col : Nat) (v : Int)
    (h0 : 0 ≤ v) (h9 : v ≤ 9) (hrange : inRange gc) :
    inRange (writeCell gc row col v) := by
  intro a b
  unfold writeCell
  split_ifs with h
  · exact ⟨h0, h9⟩
  · exact hrange a b

lemma tryCandidates_sound (recur : Grid → Option (Option Grid)) (row col : Nat) (g : Grid)
    (hrow : row ≤ 8) (hcol : col ≤ 8)
    (hrec : ∀ gc gr, consistent gc → inRange gc → recur gc = some (some gr) →
      consistent gr ∧ inRange gr ∧
      (∀ i j : Fin 9, i.val * 9 + j.val < row * 9 + col + 1 → gr i j = gc i j) ∧
      (∀ i j : Fin 9, row * 9 + col + 1 ≤ i.val * 9 + j.val → gr i j ≠ 0)) :
    ∀ (l : List Nat), (∀ x ∈ l, x < 9) → ∀ (gc gr : Grid),
      consistent gc → inRange gc →
      (∀ i j : Fin 9, ¬(i.val = row ∧ j.val = col) → gc i j = g i j) →
      tryCandidates recur row col gc l = some (some gr) →
      consistent gr ∧ inRange gr ∧
      (∀ i j : Fin 9, i.val * 9 + j.val < row * 9 + col → gr i j = g i j) ∧
      (∀ i j : Fin 9, row * 9 + col ≤ i.val * 9 + j.val → gr i j ≠ 0) := by
  intro l
  induction l with
  | nil =>
    intro _ gc gr _ _ _ hres
    rw [tryCandidates_nil] at hres
    exact absurd hres (by simp)
  | cons i rest ih =>
    intro hmem gc gr hcons hrange hoff hres
    have hi9 : i < 9 := hmem i (List.mem_cons_self i rest)
    have hmem' : ∀ x ∈ rest, x < 9 := fun x hx => hmem x (List.mem_cons_of_mem i hx)
    cases hset : setitem gc row col ((i : Int) + 1) with
    | none =>
      rw [tryCandidates_cons_invalid recur row col gc i rest hset] at hres
      exact ih hmem' gc gr hcons hrange hoff hres
    | some gcW =>
      obtain ⟨hchk, hgcW⟩ := (setitem_some_iff gc row col ((i : Int) + 1) gcW).1 hset
      subst hgcW
      have hconsW : consistent (writeCell gc row col ((i : Int) + 1)) :=
        writeCell_consistent gc ⟨row, by omega⟩ ⟨col, by omega⟩ ((i : Int) + 1) hchk hcons
      have hrangeW : inRange (writeCell gc row col ((i : Int) + 1)) :=
        writeCell_inRange gc row col ((i : Int) + 1) (by omega) (by
          have : (i : Int) ≤ 8 := by exact_mod_cast Nat.le_of_lt_succ hi9
          omega) hrange
      have hoffW : ∀ a b : Fin 9, ¬(a.val = row ∧ b.val = col) →
          writeCell gc row col ((i : Int) + 1) a b = g a b := by
        intro a b hab
        rw [writeCell_other gc ⟨row, by omega⟩ ⟨col, by omega⟩ ((i : Int) + 1) a b
          (by simpa [Fin.ext_iff] using hab)]
        exact hoff a b hab
      have htgt : ∀ a b : Fin 9, a.val = row → b.val = col →
          writeCell gc row col ((i : Int) + 1) a b = (i : Int) + 1 := by
        intro a b ha hb
        have ea : a = (⟨row, by omega⟩ : Fin 9) := Fin.ext ha
        have eb : b = (⟨col, by omega⟩ : Fin 9) := Fin.ext hb
        rw [ea, eb]
        exact writeCell_same gc ⟨row, by omega⟩ ⟨col, by omega⟩ ((i : Int) + 1)
      by_cases h88 : row = 8 ∧ col = 8
      · rw [tryCandidates_cons_last recur row col gc _ i rest hset h88] at hres
        simp only [Option.some.injEq] at hres
        subst hres
        refine ⟨hconsW, hrangeW, fun a b hlt => ?_, fun a b hge => ?_⟩
        · exact hoffW a b (by omega)
        · have hab : a.val = row ∧ b.val = col := by
            have := a.isLt; have := b.isLt; omega
          rw [htgt a b hab.1 hab.2]
          have : (0 : Int) < (i : Int) + 1 := by positivity
          omega
      · rw [tryCandidates_cons_rec recur row col gc _ i rest hset h88] at hres
        cases hr : recur (writeCell gc row col ((i : Int) + 1)) with
        | none =>
          rw [hr] at hres
          exact absurd hres (by simp)
        | some o =>
          cases o with
          | some p =>
            rw [hr] at hres
            simp only [Option.some.injEq] at hres
            subst hres
            obtain ⟨hc', hr', hunch, hnz⟩ := hrec _ p hconsW hrangeW hr
            refine ⟨hc', hr', fun a b hlt => ?_, fun a b hge => ?_⟩
            · rw [hunch a b (by omega)]
              exact hoffW a b (by omega)
            · rcases Nat.lt_or_ge (a.val * 9 + b.val) (row * 9 + col + 1) with hlt | hge'
              · have hab : a.val = row ∧ b.val = col := by
                  have := a.isLt; have := b.isLt; omega
                rw [hunch a b (by omega), htgt a b hab.1 hab.2]
                have : (0 : Int) < (i : Int) + 1 := by positivity
                omega
              · exact hnz a b hge'
          | none =>
            rw [hr] at hres
            exact ih hmem' _ gr hconsW hrangeW hoffW hres

lemma solveAux_sound :
    ∀ (fuel : Nat) (row col : Nat) (g gr : Grid), col < 9 → row * 9 + col ≤ 81 →
      consistent g → inRange g →
      solveAux fuel g row col = some (some gr) →
      consistent gr ∧ inRange gr ∧
      (∀ i j : Fin 9, i.val * 9 + j.val < row * 9 + col → gr i j = g i j) ∧
      (∀ i j : Fin 9, row * 9 + col ≤ i.val * 9 + j.val → gr i j ≠ 0) := by
  intro fuel
  induction fuel with
  | zero =>
    intro row col g gr _ _ _ _ hres
    rw [solveAux_zero] at hres
    exact absurd hres (by simp)
  | succ m ih =>
    intro row col g gr hcol hidx hcons hrange hres
    rw [solveAux_succ] at hres
    by_cases h9 : row = 9 ∨ col = 9
    · rw [if_pos h9] at hres
      simp only [Option.some.injEq] at hres
      subst hres
      have hid : 81 ≤ row * 9 + col := by
        rcases h9 with h | h <;> omega
      refine ⟨hcons, hrange, fun a b _ => rfl, fun a b hge => ?_⟩
      exact absurd hge (by have := a.isLt; have := b.isLt; omega)
    · have hrow : row ≤ 8 := by
        rcases Nat.lt_or_ge row 9 with h | h
        · omega
        · exact absurd (by omega : row = 9) (fun e => h9 (Or.inl e))
      have hcol8 : col ≤ 8 := by omega
      obtain ⟨hnidx, hncol⟩ := next_rc_spec row col hcol
      rw [if_neg h9] at hres
      by_cases hz : cell g row col ≠ 0
      · rw [if_pos hz] at hres
        obtain ⟨hc', hr', hunch, hnz⟩ := ih _ _ g gr hncol (by omega) hcons hrange hres
        refine ⟨hc', hr', fun a b hlt => hunch a b (by omega), fun a b hge => ?_⟩
        rcases Nat.lt_or_ge (a.val * 9 + b.val) (row * 9 + col + 1) with hlt | hge'
        · have hab : a.val = row ∧ b.val = col := by
            have := a.isLt; have := b.isLt; omega
          rw [hunch a b (by omega)]
          have hrow9 : row < 9 := by omega
          have ea : a = (⟨row, hrow9⟩ : Fin 9) := Fin.ext hab.1
          have eb : b = (⟨col, hcol⟩ : Fin 9) := Fin.ext hab.2
          rw [ea, eb, ← cell_eq g row col hrow9 hcol]
          exact hz
        · exact hnz a b (by omega)
      · rw [if_neg hz] at hres
        refine tryCandidates_sound _ row col g hrow hcol8 ?_ (List.range 9)
          (fun x hx => List.mem_range.1 hx) g gr hcons hrange (fun a b _ => rfl) hres
        intro gc gr' hc hr hcall
        obtain ⟨c1, c2, c3, c4⟩ := ih _ _ gc gr' hncol (by omega) hc hr hcall
        exact ⟨c1, c2, fun a b hab => c3 a b (by omega), fun a b hab => c4 a b (by omega)⟩

/-! Lemmas about construction and `__getitem__`. -/

lemma validTable_iff (data : List (List Int)) :
    validTable data = true ↔
      (data.length = 9 ∧ ∀ r ∈ data, r.length = 9 ∧ ∀ x ∈ r, 0 ≤ x ∧ x ≤ 9) := by
  simp [validTable, List.all_eq_true]

lemma puzzle_init_isSome (data : List (List Int)) :
    (puzzle_init data).isSome = true ↔ validTable data = true := by
  cases h : validTable data <;> simp [puzzle_init, h]

lemma tableGrid_verbatim (data : List (List Int)) (h : validTable data = true)
    (i j : Fin 9) :
    (data.get? i.val).bind (fun r => r.get? j.val) = some (tableGrid data i j) := by
  obtain ⟨hlen, hrows⟩ := (validTable_iff data).1 h
  have hi : i.val < data.length := by rw [hlen]; exact i.isLt
  have h1 : data.get? i.val = some (data.get ⟨i.val, hi⟩) := List.get?_eq_get hi
  have hrmem : data.get ⟨i.val, hi⟩ ∈ data := data.get_mem _ _
  obtain ⟨hrlen, _⟩ := hrows _ hrmem
  have hj : j.val < (data.get ⟨i.val, hi⟩).length := by rw [hrlen]; exact j.isLt
  have h2 : (data.get ⟨i.val, hi⟩).get? j.val =
      some ((data.get ⟨i.val, hi⟩).get ⟨j.val, hj⟩) := List.get?_eq_get hj
  show (data.get? i.val).bind (fun r => r.get? j.val) =
    some ((((data.get? i.val).getD []).get? j.val).getD 0)
  rw [h1]
  show (data.get ⟨i.val, hi⟩).get? j.val =
    some (((data.get ⟨i.val, hi⟩).get? j.val).getD 0)
  rw [h2]
  rfl

lemma puzzle_init_valid (data : List (List Int)) (g : Grid)
    (h : puzzle_init data = some g) :
    validTable data = true ∧ g = tableGrid data := by
  cases hvt : validTable data
  · unfold puzzle_init at h
    rw [hvt] at h
    simp at h
  · unfold puzzle_init at h
    rw [hvt] at h
    simp at h
    exact ⟨rfl, h.symm⟩

lemma puzzle_init_inRange (data : List (List Int)) (g : Grid)
    (h : puzzle_init data = some g) : inRange g := by
  obtain ⟨hvt, hg⟩ := puzzle_init_valid data g h
  subst hg
  obtain ⟨hlen, hrows⟩ := (validTable_iff data).1 hvt
  intro i j
  have hver := tableGrid_verbatim data hvt i j
  cases hget : data.get? i.val with
  | none => rw [hget] at hver; exact absurd hver (by simp)
  | some r =>
    rw [hget] at hver
    have hver' : r.get? j.val = some (tableGrid data i j) := hver
    have hrmem : r ∈ data := List.get?_mem hget
    have hxmem : tableGrid data i j ∈ r := List.get?_mem hver'
    exact (hrows r hrmem).2 _ hxmem

lemma pyIndex_inrange (a : Int) (r : Fin 9)
    (h : a = (r.val : Int) ∨ a = (r.val : Int) - 9) : pyIndex a = some r := by
  have hr := r.isLt
  rcases h with h | h
  · subst h
    unfold pyIndex
    rw [dif_pos ⟨by omega, by exact_mod_cast hr⟩]
    exact congrArg some (Fin.ext (show ((r.val : Int)).toNat = r.val by omega))
  · subst h
    unfold pyIndex
    rw [dif_neg (by omega), dif_pos ⟨by omega, by omega⟩]
    exact congrArg some (Fin.ext (show ((r.val : Int) - 9 + 9).toNat = r.val by omega))

lemma pyIndex_out (a : Int) (h : a < -9 ∨ 8 < a) : pyIndex a = none := by
  unfold pyIndex
  rw [dif_neg (by omega), dif_neg (by omega)]

lemma solve_eq_ok_iff (g gr : Grid) :
    solve g = Except.ok gr ↔ solveAux 82 g 0 0 = some (some gr) := by
  unfold solve
  cases h : solveAux 82 g 0 0 with
  | none => simp
  | some o =>
    cases o with
    | none => simp
    | some p => simp

/-! Claim theorems. -/

set_option maxRecDepth 8000

/-- C1 (counterexample): the all-zero grid satisfies the range invariant,
yet `set(0, 0, 17)` succeeds — 17 duplicates nothing, and `__setitem__`
checks only `isinstance(value, int)` plus `check_valid_move` — and stores
17, a value outside [0, 9].  So the claim that every successful mutation
preserves "all cells in [0, 9]" is false. -/
theorem range_invariant_cx :
    (∀ i j : Fin 9, 0 ≤ zeroGrid i j ∧ zeroGrid i j ≤ 9) ∧
    setitem zeroGrid 0 0 17 = some (writeCell zeroGrid 0 0 17) ∧
    ¬(0 ≤ writeCell zeroGrid 0 0 17 0 0 ∧ writeCell zeroGrid 0 0 17 0 0 ≤ 9) := by
  decide

/-- C1 (amended): construction enforces every cell in [0, 9] (the 9×9
shape is carried by the `Grid` type), and a successful `set` preserves the
range invariant provided the written value itself lies in [0, 9];
`__setitem__` does not range-check the value, so that proviso cannot be
dropped (see the counterexample). -/
theorem range_invariant_amended :
    (∀ (data : List (List Int)) (g : Grid), puzzle_init data = some g → inRange g) ∧
    (∀ (g : Grid) (row col : Fin 9) (v : Int) (g' : Grid), inRange g →
      0 ≤ v → v ≤ 9 → setitem g row.val col.val v = some g' → inRange g') := by
  constructor
  · exact puzzle_init_inRange
  · intro g row col v g' hg h0 h9 hset
    obtain ⟨hchk, rfl⟩ := (setitem_some_iff g row.val col.val v g').1 hset
    exact writeCell_inRange g row.val col.val v h0 h9 hg

/-- Witness for C1 (amended) at concrete inputs: the duplicate-clue table
constructs to an in-range grid, and writing 3 at (0, 0) of the empty grid
keeps the grid in range. -/
theorem range_invariant_amended_wit :
    inRange (tableGrid dupTable) ∧ inRange (writeCell zeroGrid 0 0 3) :=
  ⟨range_invariant_amended.1 dupTable (tableGrid dupTable) (by decide),
   range_invariant_amended.2 zeroGrid 0 0 3 (writeCell zeroGrid 0 0 3) (by decide)
     (by decide) (by decide) (by decide)⟩

/-- C2 (code bug): on the unsolvable grid `unsolvGrid` the backend
`_solve_puzzle` does return the distinguishable negative value `False`
(`some none`), exactly as the claim describes — but `Puzzle.solve` then
evaluates `solution.data` on that `False`, raising `AttributeError`
(modelled `.error ()`), so the caller gets an exception rather than a
checkable negative result. -/
theorem solve_crashes_on_unsolvable :
    solveAux 82 unsolvGrid 0 0 = some none ∧ solve unsolvGrid = Except.error () :=
  ⟨by decide, rfl⟩

/-- C3 (counterexample): in `cornerFive` the value 5 occurs nowhere except
at the target cell (0, 0) itself, yet `check_valid_move(0, 0, 5)` returns
false — the scan consults the target cell, contradicting the claim that
only the other 80 cells are checked. -/
theorem check_valid_move_cx :
    check_valid_move cornerFive 0 0 5 = false ∧
    (∀ i j : Fin 9, ¬(i = 0 ∧ j = 0) → cornerFive i j ≠ 5) := by
  decide

/-- C3 (amended): `check_valid_move(row, col, v)` returns true iff `v`
occurs nowhere in row `row`, nowhere in column `col`, and nowhere in the
3×3 block of `(row//3, col//3)` — where the scans include the target cell
`(row, col)` itself.  The target cell need not be empty, but its current
content is consulted: re-writing the value the cell already holds is
reported invalid. -/
theorem check_valid_move_spec (g : Grid) (row col : Fin 9) (v : Int) :
    check_valid_move g row.val col.val v = true ↔
      (∀ i : Fin 9, g i col ≠ v) ∧ (∀ j : Fin 9, g row j ≠ v) ∧
      (∀ i j : Fin 9, i.val / 3 = row.val / 3 → j.val / 3 = col.val / 3 →
        g i j ≠ v) :=
  checkValid_iff g row col v

/-- C4 (counterexample): `get(-1, -1)` on a grid holding 7 at (8, 8)
returns that value as a normal result — Python negative indexing wraps, so
out-of-range (negative) coordinates are not a fatal error, contradicting
the claim. -/
theorem getitem_cx : getitem cornerSeven (-1) (-1) = some 7 := by decide

/-- C4 (amended): `get(row, col)` returns the cell value for coordinates
in [0, 8]; coordinates above 8 or below -9 fail fatally (`IndexError`);
negative coordinates in [-9, -1] are Python negative indices — they wrap
to `index + 9` and return that cell's value as a normal result. -/
theorem getitem_amended :
    (∀ (g : Grid) (r c : Fin 9) (a b : Int),
      (a = (r.val : Int) ∨ a = (r.val : Int) - 9) →
      (b = (c.val : Int) ∨ b = (c.val : Int) - 9) →
      getitem g a b = some (g r c)) ∧
    (∀ (g : Grid) (row col : Int), (row < -9 ∨ 8 < row ∨ col < -9 ∨ 8 < col) →
      getitem g row col = none) := by
  constructor
  · intro g r c a b ha hb
    unfold getitem
    rw [pyIndex_inrange a r ha, pyIndex_inrange b c hb]
  · intro g row col h
    unfold getitem
    rcases h with h | h | h | h
    · rw [pyIndex_out row (Or.inl h)]
    · rw [pyIndex_out row (Or.inr h)]
    · rw [pyIndex_out col (Or.inl h)]
      cases pyIndex row <;> rfl
    · rw [pyIndex_out col (Or.inr h)]
      cases pyIndex row <;> rfl

/-- Witness for C4 (amended) at concrete inputs: the wrapped read
`get(-1, 8)` returns cell (8, 8), and `get(9, 0)` fails. -/
theorem getitem_amended_wit :
    getitem cornerSeven (-1) 8 = some (cornerSeven 8 8) ∧ getitem zeroGrid 9 0 = none :=
  ⟨getitem_amended.1 cornerSeven 8 8 (-1) 8 (Or.inr (by decide)) (Or.inl (by decide)),
   getitem_amended.2 zeroGrid 9 0 (by norm_num)⟩

/-- C5 (counterexample): the all-ones grid is a legal construction input
(all cells in [0, 9]) with no empty cell, so the solver skips every cell
and "succeeds", returning it unchanged — but its first row sums to 9, not
45.  The claim fails for grids whose pre-filled clues are inconsistent. -/
theorem solver_roundtrip_cx :
    solve oneGrid = Except.ok oneGrid ∧ (∑ j : Fin 9, oneGrid 0 j) = 9 :=
  ⟨rfl, by decide⟩

/-- C5 (amended): for every starting grid whose cells lie in [0, 9] and
whose non-zero cells are mutually consistent (no duplicate within any row,
column or block — e.g. any grid reached from legal clues through validated
writes), if the solver succeeds then every row and every column of the
returned grid sums to exactly 45 and contains each digit 1–9 exactly
once. -/
theorem solver_roundtrip_amended (g gr : Grid) (hr : inRange g) (hc : consistent g)
    (hok : solve g = Except.ok gr) :
    ∀ k : Fin 9,
      (∑ j : Fin 9, gr k j) = 45 ∧ (∑ i : Fin 9, gr i k) = 45 ∧
      (∀ d : Int, 1 ≤ d → d ≤ 9 →
        (∃! j : Fin 9, gr k j = d) ∧ (∃! i : Fin 9, gr i k = d)) := by
  have hres : solveAux 82 g 0 0 = some (some gr) := (solve_eq_ok_iff g gr).1 hok
  obtain ⟨hcons', hrange', _, hnz⟩ :=
    solveAux_sound 82 0 0 g gr (by omega) (by omega) hc hr hres
  have hall : ∀ i j : Fin 9, 1 ≤ gr i j ∧ gr i j ≤ 9 := by
    intro i j
    have h1 := hrange' i j
    have h2 := hnz i j (by omega)
    omega
  intro k
  have hrowinj : ∀ a b : Fin 9, a ≠ b → gr k a ≠ gr k b := by
    intro a b hne
    exact hcons' k a k b (Or.inr hne) (Or.inl rfl) (by have := hall k a; omega)
  obtain ⟨hsumr, huniqr⟩ := nine_distinct (fun j => gr k j) hrowinj (fun a => hall k a)
  have hcolinj : ∀ a b : Fin 9, a ≠ b → gr a k ≠ gr b k := by
    intro a b hne
    exact hcons' a k b k (Or.inl hne) (Or.inr (Or.inl rfl)) (by have := hall a k; omega)
  obtain ⟨hsumc, huniqc⟩ := nine_distinct (fun i => gr i k) hcolinj (fun a => hall a k)
  exact ⟨hsumr, hsumc, fun d h1 h9 => ⟨huniqr d h1 h9, huniqc d h1 h9⟩⟩

/-- Witness for C5 (amended) at a concrete input: `solvedGrid` is in
range and consistent, the solver returns it unchanged, and the theorem
yields that its first row sums to 45. -/
theorem solver_roundtrip_amended_wit :
    (∑ j : Fin 9, solvedGrid 0 j) = 45 :=
  (solver_roundtrip_amended solvedGrid solvedGrid (by decide) (by decide) rfl 0).1

/-- C6 (confirmed): for in-range coordinates, `set(row, col, value)`
raises the illegal-move error iff `check_valid_move` is false, and the
raise happens before anything is written, so the grid is unchanged
(atomicity); when the check passes, `set` writes `value` at `(row, col)`,
leaves every other cell unchanged, and succeeds. -/
theorem setitem_spec (g : Grid) (row col : Fin 9) (v : Int) :
    (setitem g row.val col.val v = none ↔
      check_valid_move g row.val col.val v = false) ∧
    (check_valid_move g row.val col.val v = true →
      setitem g row.val col.val v = some (writeCell g row.val col.val v) ∧
      writeCell g row.val col.val v row col = v ∧
      (∀ i j : Fin 9, ¬(i = row ∧ j = col) →
        writeCell g row.val col.val v i j = g i j)) := by
  refine ⟨setitem_none_iff g row.val col.val v, fun h => ⟨?_,
    writeCell_same g row col v, fun i j hij => writeCell_other g row col v i j hij⟩⟩
  simp [setitem, h]

/-- Witness for C6 at concrete inputs: writing 3 at (0, 0) of the empty
grid succeeds and stores 3; writing 5 at (0, 0) of `cornerFive` (which
already holds a 5 in that row) is rejected. -/
theorem setitem_spec_wit :
    writeCell zeroGrid 0 0 3 0 0 = 3 ∧ setitem cornerFive 0 0 5 = none :=
  ⟨((setitem_spec zeroGrid 0 0 3).2 (by decide)).2.1,
   (setitem_spec cornerFive 0 0 5).1.mpr (by decide)⟩

/-- C7 (confirmed): `complete()` returns true iff all nine row sums and
all nine column sums equal 45; no uniqueness re-check is performed — the
all-fives grid, with pre-existing duplicates everywhere, passes
`complete`. -/
theorem complete_spec :
    (∀ g : Grid, complete g = true ↔
      ((∀ i : Fin 9, (∑ j : Fin 9, g i j) = 45) ∧
       (∀ j : Fin 9, (∑ i : Fin 9, g i j) = 45))) ∧
    (complete fiveGrid = true ∧ fiveGrid 0 0 = 5 ∧ fiveGrid 0 1 = 5) := by
  constructor
  · intro g
    exact (complete_iff g).trans and_comm
  · exact ⟨by decide, rfl, rfl⟩

/-- C8 (confirmed): `__init__` succeeds iff the table has exactly 9 rows
of exactly 9 integer cells each, all in [0, 9]; on success the table is
stored verbatim, and no uniqueness check is made — `dupTable`, whose first
row starts with two 5s, is accepted as-is. -/
theorem construct_spec :
    (∀ data : List (List Int), (puzzle_init data).isSome = true ↔
      (data.length = 9 ∧ ∀ r ∈ data, r.length = 9 ∧ ∀ x ∈ r, 0 ≤ x ∧ x ≤ 9)) ∧
    (∀ (data : List (List Int)) (g : Grid), puzzle_init data = some g →
      ∀ i j : Fin 9, (data.get? i.val).bind (fun r => r.get? j.val) = some (g i j)) ∧
    (puzzle_init dupTable = some (tableGrid dupTable) ∧
      tableGrid dupTable 0 0 = 5 ∧ tableGrid dupTable 0 1 = 5) := by
  refine ⟨fun data => (puzzle_init_isSome data).trans (validTable_iff data),
    fun data g h i j => ?_, by decide, by decide, by decide⟩
  obtain ⟨hvt, hg⟩ := puzzle_init_valid data g h
  subst hg
  exact tableGrid_verbatim data hvt i j

/-- Witness for C8 at a concrete input: the duplicate clue stored at
row 0, column 1 of `dupTable` is read back verbatim. -/
theorem construct_spec_wit :
    (dupTable.get? (0 : Fin 9).val).bind (fun r => r.get? (1 : Fin 9).val) =
      some (tableGrid dupTable 0 1) :=
  construct_spec.2.1 dupTable (tableGrid dupTable) (by decide) 0 1

/-- C9 (confirmed): the solver is total.  From the cursor (0, 0) the
recursion visits the 81 cells in row-major, column-first order plus one
terminating position, so recursion depth never exceeds 82 frames (81
nested recursive descents): fuel 82 always produces a result (the model
never returns the out-of-fuel marker), and any larger fuel yields the same
result.  At most the 9 candidate values of `range(9)` are tried per empty
cell (`List.range 9` in `solveAux`), so even an unsolvable puzzle yields a
result. -/
theorem solver_terminates (g : Grid) :
    (solveAux 82 g 0 0).isSome = true ∧
    ∀ fuel : Nat, 82 ≤ fuel → solveAux fuel g 0 0 = solveAux 82 g 0 0 :=
  ⟨solveAux_isSome 82 0 0 g (by omega) (by omega) (by omega),
   fun fuel hf => solveAux_fuel_ge fuel g hf⟩

/-- Witness for C9 at a concrete input: with surplus fuel 100 the solver
computes the same result on the all-ones grid as with fuel 82. -/
theorem solver_terminates_wit :
    solveAux 100 oneGrid 0 0 = solveAux 82 oneGrid 0 0 :=
  (solver_terminates oneGrid).2 100 (by norm_num)

/-- C10 (confirmed): `set(row, col, 0)` raises the illegal-move error iff
some cell of the same row, same column, or same 3×3 block holds 0.  Since
the scan includes the target cell itself, writing 0 to a currently empty
cell always fails; a cell can be cleared to 0 only when its entire row,
column and block contain no other empty cell. -/
theorem set_zero_spec (g : Grid) (row col : Fin 9) :
    (setitem g row.val col.val 0 = none ↔
      ((∃ i : Fin 9, g i col = 0) ∨ (∃ j : Fin 9, g row j = 0) ∨
       (∃ i j : Fin 9, i.val / 3 = row.val / 3 ∧ j.val / 3 = col.val / 3 ∧
         g i j = 0))) ∧
    (g row col = 0 → setitem g row.val col.val 0 = none) := by
  have hiff := checkValid_iff g row col 0
  have hset0 : setitem g row.val col.val 0 = none ↔
      ((∃ i : Fin 9, g i col = 0) ∨ (∃ j : Fin 9, g row j = 0) ∨
       (∃ i j : Fin 9, i.val / 3 = row.val / 3 ∧ j.val / 3 = col.val / 3 ∧
         g i j = 0)) := by
    rw [setitem_none_iff]
    constructor
    · intro hfalse
      by_contra hno
      push_neg at hno
      obtain ⟨h1, h2, h3⟩ := hno
      have ht : check_valid_move g row.val col.val 0 = true :=
        hiff.2 ⟨h1, h2, fun i j hi hj => h3 i j hi hj⟩
      rw [hfalse] at ht
      exact Bool.noConfusion ht
    · intro hex
      cases hchk : check_valid_move g row.val col.val 0
      · rfl
      · obtain ⟨hc, hr, hb⟩ := hiff.1 hchk
        rcases hex with ⟨i, hi⟩ | ⟨j, hj⟩ | ⟨i, j, h1, h2, h3⟩
        · exact absurd hi (hc i)
        · exact absurd hj (hr j)
        · exact absurd h3 (hb i j h1 h2)
  exact ⟨hset0, fun h0 => hset0.2 (Or.inl ⟨row, h0⟩)⟩

/-- Witness for C10 at a concrete input: clearing the (already empty)
cell (0, 0) of the all-empty grid is rejected. -/
theorem set_zero_spec_wit : setitem zeroGrid 0 0 0 = none :=
  (set_zero_spec zeroGrid 0 0).2 (by decide)

end Sudopy
